import Mathlib

/-
Verification of the worker-agent service (src/index.ts).

The source is a single Cloudflare Worker exposing an agent loop.  The pure
control logic - the agent loop runAgent, the tool dispatcher executeToolCall,
and the five remote-function client operations - is embedded below.  All
network effects are made explicit: a World value carries, for each upstream
endpoint the source reads, the JSON-decoded answer the endpoint would return
(exactly the duck-typed shape the source accesses), plus the JSON parser for
tool-call arguments.  Thrown JS errors are modelled as Except.error carrying
the error message string.
-/

namespace WorkerAgent

/-- Roles of chat messages, from the Message interface in src/index.ts. -/
inductive Role where
  | system
  | user
  | assistant
  | tool
deriving DecidableEq

/-- A tool call requested by the model (interface ToolCall): an id plus the
called function name and its serialized JSON arguments string.  The constant
type field (always the string function) is omitted. -/
structure ToolCall where
  id : String
  name : String
  arguments : String
deriving DecidableEq

/-- Interface Message: a role, nullable text content, an optional list of
tool calls (present only on assistant messages coming from the model) and an
optional back reference to the call a tool result answers. -/
structure Message where
  role : Role
  content : Option String
  tool_calls : Option (List ToolCall) := none
  tool_call_id : Option String := none
deriving DecidableEq

/-- An outgoing HTTP request as assembled by invokeWorker. -/
structure HttpRequest where
  url : String
  method : String
  headers : List (String × String)
  body : Option String
deriving DecidableEq

/-- An HTTP response as the source consumes it: numeric status, status text,
header pairs and body text. -/
structure HttpResponse where
  status : Nat
  statusText : String
  headers : List (String × String)
  body : String
deriving DecidableEq

/-- Response.ok of the fetch API: status in the 2xx range. -/
def respOk (r : HttpResponse) : Bool :=
  decide (200 ≤ r.status) && decide (r.status < 300)

/-- The JSON envelope createWorker reads off the script upload call:
success flag and, on failure, the JSON-stringified errors array. -/
structure CreateResp where
  success : Bool
  errorsJson : String
deriving DecidableEq

/-- One entry of the scripts listing: identifier and last-modified stamp. -/
structure WorkerEntry where
  id : String
  modified_on : String
deriving DecidableEq

/-- The JSON envelope listWorkers reads: success flag, optional entry list
and the JSON-stringified errors array. -/
structure ListResp where
  success : Bool
  result : Option (List WorkerEntry)
  errorsJson : String
deriving DecidableEq

/-- The argument fields executeToolCall reads off the parsed JSON arguments
object.  Absent optional fields default like JS undefined does in the only
places they are consumed. -/
structure ToolArgs where
  name : String := ""
  code : String := ""
  method : String := ""
  path : String := ""
  body : Option String := none
  headers : Option (List (String × String)) := none
deriving DecidableEq

/-- The external world of one request: for each upstream endpoint the source
talks to, the JSON-decoded value the source would read off the response, and
the JSON parser applied to tool-call argument strings.  parseArgs models
JSON.parse: Except.error is a thrown SyntaxError.  chat models the model
client: Except.error is the thrown OpenRouter API error. -/
structure World where
  parseArgs : String → Except String ToolArgs
  createResp : String → String → CreateResp
  getResp : String → HttpResponse
  subdomain : Option String
  fetchWorker : HttpRequest → HttpResponse
  listResp : ListResp
  chat : List Message → Except String Message

/-- createWorker: uploads the module (the code string is submitted verbatim
as the worker.js part of the multipart payload), throws on platform-reported
failure, otherwise returns the fixed confirmation string.  The best-effort
subdomain enablement call that follows has no observable result and is not
modelled. -/
def createWorker (w : World) (name code : String) : Except String String :=
  let result := w.createResp name code
  if !result.success then
    .error ("Failed to create worker: " ++ result.errorsJson)
  else
    .ok ("Worker \x27" ++ name ++ "\x27 created successfully. It will be available at https://" ++ name ++ ".<your-subdomain>.workers.dev")

/-- updateWorker simply forwards to createWorker. -/
def updateWorker (w : World) (name code : String) : Except String String :=
  createWorker w name code

/-- getWorker: fetches the script content, throws on a non-2xx status with
the numeric status and status text in the message, otherwise returns the
body wrapped under a fixed header line. -/
def getWorker (w : World) (name : String) : Except String String :=
  let response := w.getResp name
  if !respOk response then
    .error ("Failed to get worker: " ++ toString response.status ++ " " ++ response.statusText)
  else
    .ok ("Source code for \x27" ++ name ++ "\x27:\n\n" ++ response.body)

/-- The body attached to the worker request, translating
body && [POST, PUT, PATCH].includes(method) ? body : undefined.
An absent body and the empty string are both falsy in JS, so a body is
attached exactly when one was supplied, is nonempty, and the method is in
the set. -/
def attachedBody (body : Option String) (method : String) : Option String :=
  match body with
  | none => none
  | some b =>
    if b = "" then none
    else if ["POST", "PUT", "PATCH"].contains method then some b
    else none

/-- JSON.stringify(Object.fromEntries(response.headers)), modelled for
header lists with pairwise distinct keys and no characters needing JSON
escaping. -/
def stringifyHeaders (hs : List (String × String)) : String :=
  "\x7b" ++ String.intercalate "," (hs.map fun p => "\"" ++ p.1 ++ "\":\"" ++ p.2 ++ "\"") ++ "\x7d"

/-- The formatted block invokeWorker returns about the worker response. -/
def formatResponse (r : HttpResponse) : String :=
  "Status: " ++ toString r.status ++ "\nHeaders: " ++ stringifyHeaders r.headers ++ "\nBody: " ++ r.body

/-- invokeWorker.  First component: the operation result, with Except.error
modelling the thrown error.  Second component: the log of HTTP requests
issued to the worker URL, so that the claim that no request is attempted is
observable; the preliminary subdomain lookup is not an entry of this log.
The looked-up subdomain value result?.subdomain is checked for JS falsiness:
both an absent value and the empty string trigger the error. -/
def invokeWorker (w : World) (name method path : String) (body : Option String)
    (headers : Option (List (String × String))) :
    Except String String × List HttpRequest :=
  match w.subdomain with
  | none => (.error "Could not determine workers.dev subdomain", [])
  | some sub =>
    if sub = "" then
      (.error "Could not determine workers.dev subdomain", [])
    else
      let req : HttpRequest :=
        { url := "https://" ++ name ++ "." ++ sub ++ ".workers.dev" ++ path
          method := method
          headers := headers.getD []
          body := attachedBody body method }
      (.ok (formatResponse (w.fetchWorker req)), [req])

/-- The line listWorkers renders for one listing entry. -/
def renderEntry (en : WorkerEntry) : String :=
  "- " ++ en.id ++ " (modified: " ++ en.modified_on ++ ")"

/-- listWorkers: throws on platform-reported failure, returns the fixed
string on an empty (or absent) result array, else a Workers: header plus
one rendered line per entry joined by newlines. -/
def listWorkers (w : World) : Except String String :=
  let result := w.listResp
  if !result.success then
    .error ("Failed to list workers: " ++ result.errorsJson)
  else
    let workers := result.result.getD []
    if workers.isEmpty then
      .ok "No workers found."
    else
      .ok ("Workers:\n" ++ String.intercalate "\n" (workers.map renderEntry))

/-- The switch statement of executeToolCall: dispatch by tool name to the
matching client operation; an unrecognized name yields the Unknown tool
text instead of an error. -/
def dispatch (w : World) (name : String) (args : ToolArgs) : Except String String :=
  match name with
  | "create_worker" => createWorker w args.name args.code
  | "update_worker" => updateWorker w args.name args.code
  | "get_worker" => getWorker w args.name
  | "invoke_worker" => (invokeWorker w args.name args.method args.path args.body args.headers).1
  | "list_workers" => listWorkers w
  | _ => .ok ("Unknown tool: " ++ name)

/-- executeToolCall: JSON.parse of the arguments runs BEFORE the try block,
so a parse failure propagates as Except.error; any error thrown by the
dispatched operation is caught and converted to the Error: text. -/
def executeToolCall (w : World) (tc : ToolCall) : Except String String :=
  match w.parseArgs tc.arguments with
  | .error e => .error e
  | .ok args =>
    match dispatch w tc.name args with
    | .ok r => .ok r
    | .error e => .ok ("Error: " ++ e)

/-- The tool message the loop appends for one executed call. -/
def toolMessage (tc : ToolCall) (result : String) : Message :=
  { role := Role.tool, content := some result, tool_calls := none, tool_call_id := some tc.id }

/-- The for loop over message.tool_calls: execute each call in request
order, appending one tool message per call; a propagating error from
executeToolCall aborts the whole run. -/
def runTools (w : World) (calls : List ToolCall) (messages : List Message) :
    Except String (List Message) :=
  match calls with
  | [] => .ok messages
  | tc :: rest =>
    match executeToolCall w tc with
    | .error e => .error e
    | .ok r => runTools w rest (messages ++ [toolMessage tc r])

/-- The termination test of the loop: !message.tool_calls or an empty
tool_calls array. -/
def noToolCalls (m : Message) : Bool :=
  match m.tool_calls with
  | none => true
  | some l => l.isEmpty

/-- The system prompt of runAgent, verbatim. -/
def systemPrompt : String :=
  "You are an AI agent that can create, update, invoke, and manage Cloudflare Workers.\n\nWhen creating workers, write valid JavaScript/TypeScript code that exports a default fetch handler. Example:\n\nexport default \x7b\n  async fetch(request, env, ctx) \x7b\n    return new Response(\"Hello World!\");\n  \x7d\n\x7d;\n\nYou can create workers to solve tasks, invoke them to test, and update them if there are issues.\nYou can also read the source code of existing workers using get_worker.\nBe concise and efficient. After completing the task, provide a clear summary of what was accomplished."

/-- The initial conversation of runAgent: system prompt then user prompt. -/
def initialMessages (prompt : String) : List Message :=
  [{ role := Role.system, content := some systemPrompt },
   { role := Role.user, content := some prompt }]

/-- The iteration cap of runAgent. -/
def maxIterations : Nat := 20

/-- The while loop of runAgent.  The source loops while
iterations < maxIterations, incrementing iterations at the top of the body;
here fuel equals maxIterations - iterations, so fuel = 0 exactly when the
while condition fails, and each pass decrements fuel as it increments
iterations.  The returned triple is the result string, the conversation,
and the final value of the iterations counter. -/
def runLoop (w : World) (messages : List Message) (iterations fuel : Nat) :
    Except String (String × List Message × Nat) :=
  match fuel with
  | 0 => .ok ("Max iterations reached", messages, iterations)
  | fuel + 1 =>
    match w.chat messages with
    | .error e => .error e
    | .ok message =>
      let messages2 := messages ++ [message]
      if noToolCalls message then
        .ok (message.content.getD "", messages2, iterations + 1)
      else
        match runTools w (message.tool_calls.getD []) messages2 with
        | .error e => .error e
        | .ok messages3 => runLoop w messages3 (iterations + 1) fuel

/-- runAgent: run the loop from the initial conversation with the counter
at 0, hence with maxIterations units of fuel. -/
def runAgent (w : World) (prompt : String) :
    Except String (String × List Message × Nat) :=
  runLoop w (initialMessages prompt) 0 maxIterations

/-- Whether an operation result is a success (no thrown error). -/
def isOkE (e : Except String String) : Bool :=
  match e with
  | .ok _ => true
  | .error _ => false

/-- The successful result text of an executed call (empty for a thrown
one); used to describe the tool messages runTools appends. -/
def execResult (w : World) (tc : ToolCall) : String :=
  match executeToolCall w tc with
  | .ok r => r
  | .error _ => ""

/-- The ids of the tool calls carried by one message. -/
def callIds (m : Message) : List String :=
  (m.tool_calls.getD []).map ToolCall.id

/-- All tool-call ids emitted anywhere in a conversation. -/
def allCallIds (msgs : List Message) : List String :=
  (msgs.map callIds).flatten

/-- The conversation invariant: every tool message references, through its
tool_call_id, a tool-call id emitted by a message strictly earlier in the
conversation. -/
def Linked (msgs : List Message) : Prop :=
  ∀ pre m post, msgs = pre ++ m :: post → m.role = Role.tool →
    ∃ i, m.tool_call_id = some i ∧ i ∈ allCallIds pre

/-- The result string and final counter of a run, for stating concrete
facts about a run without spelling out its transcript. -/
def runResult (e : Except String (String × List Message × Nat)) :
    Option (String × Nat) :=
  match e with
  | .ok (r, _, n) => some (r, n)
  | .error _ => none

/-- A benign concrete world: every upstream call succeeds, argument parsing
always succeeds, and the model returns a plain assistant answer with no
tool calls. -/
def baseWorld : World :=
  { parseArgs := fun _ => .ok {}
    createResp := fun _ _ => { success := true, errorsJson := "" }
    getResp := fun _ => { status := 200, statusText := "OK", headers := [], body := "" }
    subdomain := some "acct"
    fetchWorker := fun _ => { status := 200, statusText := "OK", headers := [("content-type", "text/plain")], body := "pong" }
    listResp := { success := true, result := some [], errorsJson := "" }
    chat := fun _ => .ok { role := Role.assistant, content := some "done" } }

/-- The plain assistant answer baseWorld returns from every chat call. -/
def plainAnswer : Message :=
  { role := Role.assistant, content := some "done" }

/-- A concrete tool call asking for the worker listing. -/
def tcList : ToolCall :=
  { id := "call_1", name := "list_workers", arguments := "\x7b\x7d" }

/-- A concrete tool call reading a worker. -/
def tcGet : ToolCall :=
  { id := "call_2", name := "get_worker", arguments := "\x7b\x7d" }

/-- A concrete tool call with a name outside the catalog. -/
def tcDelete : ToolCall :=
  { id := "call_3", name := "delete_worker", arguments := "\x7b\x7d" }

/-- The assistant message a looping model emits: always one tool call. -/
def loopingAnswer : Message :=
  { role := Role.assistant, content := some "", tool_calls := some [tcList] }

/-- A world whose model asks for the listing tool on every turn, so a run
never sees a response free of tool calls. -/
def loopingWorld : World :=
  { baseWorld with chat := fun _ => .ok loopingAnswer }

/-- The assistant message of a model that asks to read a worker. -/
def getToolAnswer : Message :=
  { role := Role.assistant, content := some "", tool_calls := some [tcGet] }

/-- A world whose script-content endpoint answers 500, making get_worker
throw, and whose model asks for that very tool. -/
def failingGetWorld : World :=
  { baseWorld with
    getResp := fun _ => { status := 500, statusText := "Internal Server Error", headers := [], body := "" }
    chat := fun _ => .ok getToolAnswer }

/-- A world whose JSON parser rejects every arguments string, and whose
model asks for a tool on the first turn. -/
def badParseWorld : World :=
  { baseWorld with
    parseArgs := fun _ => .error "Unexpected end of JSON input"
    chat := fun _ => .ok getToolAnswer }

/-- A world with no workers.dev subdomain configured. -/
def noSubdomainWorld : World :=
  { baseWorld with subdomain := none }

/-- A world whose listing endpoint reports two workers. -/
def twoWorkersWorld : World :=
  { baseWorld with listResp := { success := true, result := some [{ id := "alpha", modified_on := "2024-01-01" }, { id := "beta", modified_on := "2024-02-02" }], errorsJson := "" } }

/-- A world whose script-content endpoint serves back exactly the code
string X that createWorker submitted for any name: the platform round-trip
of claim C10, after create_or_update was called with code X. -/
def roundTripWorld : World :=
  { baseWorld with getResp := fun _ => { status := 200, statusText := "OK", headers := [], body := "X" } }

theorem runLoop_plain (w : World) (msgs : List Message) (it f : Nat) (m : Message)
    (hc : w.chat msgs = .ok m) (hnt : noToolCalls m = true) :
    runLoop w msgs it (f + 1) = .ok (m.content.getD "", msgs ++ [m], it + 1) := by
  simp [runLoop, hc, hnt]

/-- C1: a model response with no tool calls terminates the loop at that very
iteration - after exactly one iteration when it answers the initial
conversation - and the run returns the text content of that message
verbatim (the empty string for null content) together with the full
conversation. -/
theorem no_tool_calls_terminates :
    (∀ (w : World) (msgs : List Message) (it f : Nat) (m : Message),
        w.chat msgs = .ok m → noToolCalls m = true →
        ∃ res, runLoop w msgs it (f + 1) = .ok (res, msgs ++ [m], it + 1) ∧
          (∀ s, m.content = some s → res = s) ∧ (m.content = none → res = "")) ∧
    (∀ (w : World) (prompt : String) (m : Message),
        w.chat (initialMessages prompt) = .ok m → noToolCalls m = true →
        ∃ res, runAgent w prompt = .ok (res, initialMessages prompt ++ [m], 1) ∧
          (∀ s, m.content = some s → res = s) ∧ (m.content = none → res = "")) := by
  constructor
  · intro w msgs it f m hc hnt
    exact ⟨m.content.getD "", runLoop_plain w msgs it f m hc hnt,
      fun s hs => by rw [hs]; rfl, fun h => by rw [h]; rfl⟩
  · intro w prompt m hc hnt
    refine ⟨m.content.getD "", ?_, fun s hs => by rw [hs]; rfl, fun h => by rw [h]; rfl⟩
    have h19 : maxIterations = 19 + 1 := rfl
    rw [runAgent, h19]
    exact runLoop_plain w _ 0 19 m hc hnt

/-- Witness for C1: in the benign world the first response already has no
tool calls, and the run stops after one iteration with its text verbatim
and the full conversation. -/
theorem no_tool_calls_terminates_witness :
    runAgent baseWorld "hi" = .ok ("done", initialMessages "hi" ++ [plainAnswer], 1) := by
  obtain ⟨res, h1, h2, -⟩ := no_tool_calls_terminates.2 baseWorld "hi" plainAnswer rfl rfl
  rwa [h2 "done" rfl] at h1

theorem runTools_ok (w : World) :
    ∀ (calls : List ToolCall) (msgs : List Message),
      (∀ c ∈ calls, isOkE (executeToolCall w c) = true) →
      runTools w calls msgs =
        .ok (msgs ++ calls.map fun c => toolMessage c (execResult w c)) := by
  intro calls
  induction calls with
  | nil => intro msgs _; simp [runTools]
  | cons c rest ih =>
    intro msgs hok
    cases he : executeToolCall w c with
    | error e =>
      have := hok c (List.mem_cons_self c rest)
      rw [he] at this
      simp [isOkE] at this
    | ok r =>
      have hstep : runTools w (c :: rest) msgs = runTools w rest (msgs ++ [toolMessage c r]) := by
        simp [runTools, he]
      rw [hstep, ih _ (fun d hd => hok d (List.mem_cons_of_mem _ hd))]
      simp [execResult, he]

theorem allCallIds_snoc (msgs : List Message) (m : Message) :
    allCallIds (msgs ++ [m]) = allCallIds msgs ++ callIds m := by
  simp [allCallIds]

theorem linked_snoc (msgs : List Message) (m : Message) (hl : Linked msgs)
    (hm : m.role = Role.tool → ∃ i, m.tool_call_id = some i ∧ i ∈ allCallIds msgs) :
    Linked (msgs ++ [m]) := by
  intro pre x post hx hrole
  rcases List.eq_nil_or_concat post with hpost | ⟨ps, p, hpost⟩
  · subst hpost
    obtain ⟨h1, h2⟩ := List.append_inj' hx rfl
    injection h2 with hmx _
    subst h1
    subst hmx
    exact hm hrole
  · subst hpost
    rw [List.concat_eq_append,
      show pre ++ x :: (ps ++ [p]) = (pre ++ x :: ps) ++ [p] by simp] at hx
    obtain ⟨h1, h2⟩ := List.append_inj' hx rfl
    exact hl pre x ps h1 hrole

theorem runTools_linked (w : World) :
    ∀ (calls : List ToolCall) (msgs msgs2 : List Message),
      Linked msgs → (∀ c ∈ calls, c.id ∈ allCallIds msgs) →
      runTools w calls msgs = .ok msgs2 → Linked msgs2 := by
  intro calls
  induction calls with
  | nil =>
    intro msgs msgs2 hl _ h
    simp [runTools] at h
    exact h ▸ hl
  | cons c rest ih =>
    intro msgs msgs2 hl hids h
    cases he : executeToolCall w c with
    | error e => simp [runTools, he] at h
    | ok r =>
      have hstep : runTools w (c :: rest) msgs = runTools w rest (msgs ++ [toolMessage c r]) := by
        simp [runTools, he]
      rw [hstep] at h
      apply ih (msgs ++ [toolMessage c r]) msgs2 ?_ ?_ h
      · exact linked_snoc msgs (toolMessage c r) hl
          (fun _ => ⟨c.id, rfl, hids c (List.mem_cons_self c rest)⟩)
      · intro d hd
        rw [allCallIds_snoc]
        exact List.mem_append_left _ (hids d (List.mem_cons_of_mem _ hd))

theorem runLoop_linked (w : World)
    (hchat : ∀ conv m, w.chat conv = .ok m → m.role ≠ Role.tool) :
    ∀ (f : Nat) (msgs : List Message) (it : Nat) (r : String) (ms : List Message) (n : Nat),
      Linked msgs → runLoop w msgs it f = .ok (r, ms, n) → Linked ms := by
  intro f
  induction f with
  | zero =>
    intro msgs it r ms n hl h
    simp [runLoop, Prod.ext_iff] at h
    obtain ⟨-, h2, -⟩ := h
    exact h2 ▸ hl
  | succ f ih =>
    intro msgs it r ms n hl h
    cases hc : w.chat msgs with
    | error e => simp [runLoop, hc] at h
    | ok m =>
      have hrole := hchat msgs m hc
      have hl2 : Linked (msgs ++ [m]) :=
        linked_snoc msgs m hl (fun ht => absurd ht hrole)
      by_cases hnt : noToolCalls m
      · simp only [runLoop, hc, hnt, if_true, Except.ok.injEq, Prod.mk.injEq] at h
        obtain ⟨-, h2, -⟩ := h
        exact h2 ▸ hl2
      · cases hrt : runTools w (m.tool_calls.getD []) (msgs ++ [m]) with
        | error e => simp [runLoop, hc, hnt, hrt] at h
        | ok msgs3 =>
          have h' : runLoop w msgs3 (it + 1) f = .ok (r, ms, n) := by
            simpa [runLoop, hc, hnt, hrt] using h
          have hids : ∀ c ∈ m.tool_calls.getD [], c.id ∈ allCallIds (msgs ++ [m]) := by
            intro c hcmem
            rw [allCallIds_snoc]
            refine List.mem_append_right _ ?_
            exact List.mem_map_of_mem ToolCall.id hcmem
          exact ih msgs3 (it + 1) r ms n
            (runTools_linked w _ _ _ hl2 hids hrt) h'

theorem linked_initial (prompt : String) : Linked (initialMessages prompt) := by
  intro pre m post h hrole
  rcases pre with _ | ⟨a, _ | ⟨b, pre⟩⟩
  · simp [initialMessages] at h
    rw [← h.1] at hrole
    simp at hrole
  · simp [initialMessages] at h
    rw [← h.2.1] at hrole
    simp at hrole
  · simp [initialMessages] at h

/-- C2: an assistant turn carrying N tool calls makes the loop append
exactly N tool messages, one per requested call, in request order, each
carrying as tool_call_id the id of its corresponding call; consequently,
in any completed run (given that the model emits only non-tool roles, as
the chat API does) every tool message of the returned conversation
references a tool-call id emitted earlier in that same conversation. -/
theorem tool_messages_match_calls :
    (∀ (w : World) (calls : List ToolCall) (msgs : List Message),
        (∀ c ∈ calls, isOkE (executeToolCall w c) = true) →
        runTools w calls msgs =
          .ok (msgs ++ calls.map fun c => toolMessage c (execResult w c))) ∧
    (∀ (w : World) (prompt r : String) (ms : List Message) (n : Nat),
        (∀ conv m, w.chat conv = .ok m → m.role ≠ Role.tool) →
        runAgent w prompt = .ok (r, ms, n) → Linked ms) := by
  constructor
  · exact runTools_ok
  · intro w prompt r ms n hchat h
    exact runLoop_linked w hchat maxIterations (initialMessages prompt) 0 r ms n
      (linked_initial prompt) h

/-- Witness for C2: two concrete calls yield exactly two tool messages in
request order with matching ids, and a full concrete run satisfies the
link invariant. -/
theorem tool_messages_match_calls_witness :
    runTools baseWorld [tcList, tcGet] [] =
      .ok ([] ++ [tcList, tcGet].map fun c => toolMessage c (execResult baseWorld c)) ∧
    Linked (initialMessages "hi" ++ [plainAnswer]) :=
  ⟨tool_messages_match_calls.1 baseWorld [tcList, tcGet] [] (by decide),
   tool_messages_match_calls.2 baseWorld "hi" "done" (initialMessages "hi" ++ [plainAnswer]) 1
     (fun conv m h => by injection h with h2; rw [← h2]; decide)
     rfl⟩

theorem runLoop_counter (w : World) :
    ∀ (f : Nat) (msgs : List Message) (it : Nat) (r : String) (ms : List Message) (n : Nat),
      runLoop w msgs it f = .ok (r, ms, n) → n ≤ it + f := by
  intro f
  induction f with
  | zero =>
    intro msgs it r ms n h
    simp [runLoop, Prod.ext_iff] at h
    omega
  | succ f ih =>
    intro msgs it r ms n h
    cases hc : w.chat msgs with
    | error e => simp [runLoop, hc] at h
    | ok m =>
      by_cases hnt : noToolCalls m
      · simp only [runLoop, hc, hnt, if_true, Except.ok.injEq, Prod.mk.injEq] at h
        omega
      · cases hrt : runTools w (m.tool_calls.getD []) (msgs ++ [m]) with
        | error e => simp [runLoop, hc, hnt, hrt] at h
        | ok msgs3 =>
          have h' : runLoop w msgs3 (it + 1) f = .ok (r, ms, n) := by
            simpa [runLoop, hc, hnt, hrt] using h
          have := ih msgs3 (it + 1) r ms n h'
          omega

theorem runLoop_exhaust (w : World)
    (hchat : ∀ conv, ∃ m, w.chat conv = .ok m ∧ noToolCalls m = false)
    (htools : ∀ c, isOkE (executeToolCall w c) = true) :
    ∀ (f : Nat) (msgs : List Message) (it : Nat),
      ∃ ms, runLoop w msgs it f = .ok ("Max iterations reached", ms, it + f) := by
  intro f
  induction f with
  | zero => intro msgs it; exact ⟨msgs, by simp [runLoop]⟩
  | succ f ih =>
    intro msgs it
    obtain ⟨m, hc, hnt⟩ := hchat msgs
    have hrt : runTools w (m.tool_calls.getD []) (msgs ++ [m]) =
        .ok ((msgs ++ [m]) ++ (m.tool_calls.getD []).map fun c => toolMessage c (execResult w c)) :=
      runTools_ok w _ _ (fun c _ => htools c)
    obtain ⟨ms, hms⟩ :=
      ih ((msgs ++ [m]) ++ (m.tool_calls.getD []).map fun c => toolMessage c (execResult w c)) (it + 1)
    refine ⟨ms, ?_⟩
    have harith : it + 1 + f = it + (f + 1) := by omega
    rw [harith] at hms
    simp only [runLoop, hc, hnt, Bool.false_eq_true, if_false, hrt]
    simpa using hms

theorem executeToolCall_loopingWorld_ok (c : ToolCall) :
    isOkE (executeToolCall loopingWorld c) = true := by
  have hp : loopingWorld.parseArgs c.arguments = .ok {} := rfl
  simp only [executeToolCall, hp]
  cases hd : dispatch loopingWorld c.name {} <;> simp [hd, isOkE]

/-- C3: the iterations counter of a completed run never exceeds 20 (so at
most 20 model calls are made), and when every model response carries tool
calls while every tool execution completes, the run exhausts the cap and
returns the literal string Max iterations reached together with the
conversation gathered so far, the counter at exactly 20. -/
theorem iteration_cap :
    (∀ (w : World) (prompt r : String) (ms : List Message) (n : Nat),
        runAgent w prompt = .ok (r, ms, n) → n ≤ 20) ∧
    (∀ (w : World) (prompt : String),
        (∀ conv, ∃ m, w.chat conv = .ok m ∧ noToolCalls m = false) →
        (∀ c, isOkE (executeToolCall w c) = true) →
        ∃ ms, runAgent w prompt = .ok ("Max iterations reached", ms, 20)) := by
  constructor
  · intro w prompt r ms n h
    have := runLoop_counter w maxIterations (initialMessages prompt) 0 r ms n h
    simpa [maxIterations] using this
  · intro w prompt hchat htools
    obtain ⟨ms, hms⟩ := runLoop_exhaust w hchat htools maxIterations (initialMessages prompt) 0
    exact ⟨ms, by simpa [maxIterations] using hms⟩

/-- Witness for C3: in the looping world, where the model asks for a tool
on every turn, the run ends with the fixed result string at counter 20,
within the bound. -/
theorem iteration_cap_witness :
    runResult (runAgent loopingWorld "loop") = some ("Max iterations reached", 20) ∧ 20 ≤ 20 := by
  obtain ⟨ms, hms⟩ := iteration_cap.2 loopingWorld "loop"
    (fun conv => ⟨loopingAnswer, rfl, rfl⟩) executeToolCall_loopingWorld_ok
  exact ⟨by rw [hms]; rfl, iteration_cap.1 loopingWorld "loop" _ ms 20 hms⟩

/-- C4: when the arguments parse, an error thrown by the dispatched client
operation is caught inside the dispatcher and converted to the textual
result Error: message rather than propagated; the loop then continues, the
conversation gaining one tool message whose content starts with the
Error: marker. -/
theorem tool_error_isolated (w : World) (tc : ToolCall) (args : ToolArgs) (e : String)
    (hp : w.parseArgs tc.arguments = .ok args)
    (hd : dispatch w tc.name args = .error e) :
    executeToolCall w tc = .ok ("Error: " ++ e) ∧
    (∃ t, "Error: " ++ e = "Error: " ++ t) ∧
    (∀ msgs, runTools w [tc] msgs = .ok (msgs ++ [toolMessage tc ("Error: " ++ e)])) ∧
    (∀ (msgs : List Message) (it f : Nat) (m : Message),
        w.chat msgs = .ok m → m.tool_calls = some [tc] →
        runLoop w msgs it (f + 1) =
          runLoop w ((msgs ++ [m]) ++ [toolMessage tc ("Error: " ++ e)]) (it + 1) f) := by
  have hexec : executeToolCall w tc = .ok ("Error: " ++ e) := by
    simp [executeToolCall, hp, hd]
  refine ⟨hexec, ⟨e, rfl⟩, ?_, ?_⟩
  · intro msgs
    simp [runTools, hexec]
  · intro msgs it f m hc htc
    have hnt : noToolCalls m = false := by simp [noToolCalls, htc]
    simp [runLoop, hc, hnt, htc, runTools, hexec]

/-- Witness for C4: a 500 from the content endpoint makes get_worker throw,
the dispatcher converts it into an Error: text, and the loop keeps going,
appending that text as a tool message. -/
theorem tool_error_isolated_witness :
    executeToolCall failingGetWorld tcGet = .ok ("Error: " ++ "Failed to get worker: 500 Internal Server Error") ∧
    runTools failingGetWorld [tcGet] [] = .ok ([] ++ [toolMessage tcGet ("Error: " ++ "Failed to get worker: 500 Internal Server Error")]) ∧
    runLoop failingGetWorld (initialMessages "p") 0 maxIterations =
      runLoop failingGetWorld ((initialMessages "p" ++ [getToolAnswer]) ++ [toolMessage tcGet ("Error: " ++ "Failed to get worker: 500 Internal Server Error")]) 1 19 := by
  have h := tool_error_isolated failingGetWorld tcGet {} "Failed to get worker: 500 Internal Server Error" rfl rfl
  exact ⟨h.1, h.2.2.1 [], h.2.2.2 (initialMessages "p") 0 19 getToolAnswer rfl rfl⟩

/-- C5: a tool call whose arguments string is not well-formed JSON makes
executeToolCall itself fail, because the parse runs before the catch
boundary; the failure aborts the tool sequence and the whole loop,
surfacing as a top-level error rather than an in-conversation Error:
tool message. -/
theorem parse_failure_propagates (w : World) (tc : ToolCall) (e : String)
    (hp : w.parseArgs tc.arguments = .error e) :
    executeToolCall w tc = .error e ∧
    (∀ rest msgs, runTools w (tc :: rest) msgs = .error e) ∧
    (∀ (msgs : List Message) (it f : Nat) (m : Message) (rest : List ToolCall),
        w.chat msgs = .ok m → m.tool_calls = some (tc :: rest) →
        runLoop w msgs it (f + 1) = .error e) := by
  have hexec : executeToolCall w tc = .error e := by
    simp [executeToolCall, hp]
  refine ⟨hexec, ?_, ?_⟩
  · intro rest msgs
    simp [runTools, hexec]
  · intro msgs it f m rest hc htc
    have hnt : noToolCalls m = false := by simp [noToolCalls, htc]
    simp [runLoop, hc, hnt, htc, runTools, hexec]

/-- Witness for C5: with an unparsable arguments string the dispatcher
fails, one pending call already aborts the tool sequence, and the whole
run returns a top-level error instead of a transcript. -/
theorem parse_failure_propagates_witness :
    executeToolCall badParseWorld tcGet = .error "Unexpected end of JSON input" ∧
    runTools badParseWorld [tcGet] [] = .error "Unexpected end of JSON input" ∧
    runAgent badParseWorld "p" = .error "Unexpected end of JSON input" := by
  have h := parse_failure_propagates badParseWorld tcGet "Unexpected end of JSON input" rfl
  refine ⟨h.1, h.2.1 [] [], ?_⟩
  have h20 : maxIterations = 19 + 1 := rfl
  rw [runAgent, h20]
  exact h.2.2 (initialMessages "p") 0 19 getToolAnswer [] rfl rfl

/-- C6: a tool name outside the dispatched catalog yields the textual
result Unknown tool: name instead of an error, and the loop continues,
appending that text as the tool message. -/
theorem unknown_tool_text (w : World) (tc : ToolCall) (args : ToolArgs)
    (hp : w.parseArgs tc.arguments = .ok args)
    (hname : tc.name ∉ (["create_worker", "update_worker", "get_worker", "invoke_worker", "list_workers"] : List String)) :
    executeToolCall w tc = .ok ("Unknown tool: " ++ tc.name) ∧
    (∀ msgs, runTools w [tc] msgs = .ok (msgs ++ [toolMessage tc ("Unknown tool: " ++ tc.name)])) := by
  have hd : dispatch w tc.name args = .ok ("Unknown tool: " ++ tc.name) := by
    unfold dispatch
    split <;> simp_all
  have hexec : executeToolCall w tc = .ok ("Unknown tool: " ++ tc.name) := by
    simp [executeToolCall, hp, hd]
  exact ⟨hexec, fun msgs => by simp [runTools, hexec]⟩

/-- Witness for C6: the name delete_worker is not in the catalog, so the
call produces the Unknown tool text and a tool message carrying it. -/
theorem unknown_tool_text_witness :
    executeToolCall baseWorld tcDelete = .ok ("Unknown tool: " ++ tcDelete.name) ∧
    runTools baseWorld [tcDelete] [] = .ok ([] ++ [toolMessage tcDelete ("Unknown tool: " ++ tcDelete.name)]) := by
  have h := unknown_tool_text baseWorld tcDelete {} rfl (by decide)
  exact ⟨h.1, h.2 []⟩

theorem attachedBody_some (body : Option String) (method b : String)
    (hb : attachedBody body method = some b) :
    (method = "POST" ∨ method = "PUT" ∨ method = "PATCH") ∧ body = some b := by
  cases body with
  | none => simp [attachedBody] at hb
  | some b0 =>
    by_cases h0 : b0 = ""
    · simp [attachedBody, h0] at hb
    · simp [attachedBody, h0] at hb
      exact ⟨hb.1, by rw [hb.2]⟩

theorem attachedBody_other (body : Option String) (method : String)
    (hm : method ≠ "POST" ∧ method ≠ "PUT" ∧ method ≠ "PATCH") :
    attachedBody body method = none := by
  cases body with
  | none => rfl
  | some b0 =>
    by_cases h0 : b0 = ""
    · simp [attachedBody, h0]
    · simp [attachedBody, h0]
      exact ⟨hm.1, hm.2.1, hm.2.2⟩

/-- C7: when the subdomain lookup yields no configured subdomain (absent or
empty, both falsy in the source), invoke fails with the fixed configuration
error and the request log to the worker URL stays empty: the HTTP call to
the worker is never attempted. -/
theorem invoke_without_subdomain (w : World) (name method path : String)
    (body : Option String) (headers : Option (List (String × String)))
    (hs : w.subdomain = none ∨ w.subdomain = some "") :
    invokeWorker w name method path body headers =
      (.error "Could not determine workers.dev subdomain", []) := by
  rcases hs with hs | hs <;> simp [invokeWorker, hs]

/-- Witness for C7: with no subdomain configured, a GET of the root path
fails with the configuration error and issues no worker request. -/
theorem invoke_without_subdomain_witness :
    invokeWorker noSubdomainWorld "demo-fn" "GET" "/" none none =
      (.error "Could not determine workers.dev subdomain", []) :=
  invoke_without_subdomain noSubdomainWorld "demo-fn" "GET" "/" none none (Or.inl rfl)

/-- C8: with a configured subdomain the request issued to the worker URL
carries the given body exactly when the method is POST, PUT or PATCH and a
nonempty body was supplied; for any other method the request has no body;
and the returned text is the formatted block with the response status
code, all response headers, and the raw body text. -/
theorem invoke_request_shape (w : World) (name method path : String)
    (body : Option String) (headers : Option (List (String × String))) (sub : String)
    (hs : w.subdomain = some sub) (hne : sub ≠ "") :
    invokeWorker w name method path body headers =
      (.ok (formatResponse (w.fetchWorker
          { url := "https://" ++ name ++ "." ++ sub ++ ".workers.dev" ++ path
            method := method
            headers := headers.getD []
            body := attachedBody body method })),
        [{ url := "https://" ++ name ++ "." ++ sub ++ ".workers.dev" ++ path
           method := method
           headers := headers.getD []
           body := attachedBody body method }]) ∧
    (∀ b, attachedBody body method = some b →
        (method = "POST" ∨ method = "PUT" ∨ method = "PATCH") ∧ body = some b) ∧
    ((method ≠ "POST" ∧ method ≠ "PUT" ∧ method ≠ "PATCH") →
        attachedBody body method = none) ∧
    (∀ r, formatResponse r =
        "Status: " ++ toString r.status ++ "\nHeaders: " ++ stringifyHeaders r.headers ++ "\nBody: " ++ r.body) :=
  ⟨by simp [invokeWorker, hs, hne],
   fun b hb => attachedBody_some body method b hb,
   fun hm => attachedBody_other body method hm,
   fun r => rfl⟩

/-- Witness for C8: a GET with a supplied body still goes out with no
body attached, and the result is the formatted block for the concrete
response of the benign world. -/
theorem invoke_request_shape_witness :
    invokeWorker baseWorld "demo-fn" "GET" "/" (some "ignored") none =
      (.ok (formatResponse (baseWorld.fetchWorker
          { url := "https://" ++ "demo-fn" ++ "." ++ "acct" ++ ".workers.dev" ++ "/"
            method := "GET"
            headers := (none : Option (List (String × String))).getD []
            body := attachedBody (some "ignored") "GET" })),
        [{ url := "https://" ++ "demo-fn" ++ "." ++ "acct" ++ ".workers.dev" ++ "/"
           method := "GET"
           headers := (none : Option (List (String × String))).getD []
           body := attachedBody (some "ignored") "GET" }]) ∧
    attachedBody (some "ignored") "GET" = none := by
  have h := invoke_request_shape baseWorld "demo-fn" "GET" "/" (some "ignored") none "acct" rfl (by decide)
  exact ⟨h.1, h.2.2.1 (by decide)⟩

/-- C9: a successful listing with zero entries returns exactly the literal
No workers found. string; with entries it returns the Workers: header
followed by one rendered line per entry, joined by newlines in listing
order, each line carrying that entry identifier and its last-modified
timestamp. -/
theorem list_render (w : World) (hs : w.listResp.success = true) :
    (w.listResp.result.getD [] = [] → listWorkers w = .ok "No workers found.") ∧
    (∀ l, w.listResp.result = some l → l ≠ [] →
        listWorkers w = .ok ("Workers:\n" ++ String.intercalate "\n" (l.map renderEntry)) ∧
        (l.map renderEntry).length = l.length ∧
        (∀ en ∈ l, ∃ s t, renderEntry en = s ++ en.id ++ t ∧
            ∃ u v, renderEntry en = u ++ en.modified_on ++ v)) := by
  constructor
  · intro hempty
    simp [listWorkers, hs, hempty]
  · intro l hres hne
    have hne' : l.isEmpty = false := by
      cases l with
      | nil => exact absurd rfl hne
      | cons a as => rfl
    refine ⟨by simp [listWorkers, hs, hres, hne'], by simp, ?_⟩
    intro en _
    refine ⟨"- ", " (modified: " ++ en.modified_on ++ ")", ?_,
      "- " ++ en.id ++ " (modified: ", ")", ?_⟩
    · simp [renderEntry, String.append_assoc]
    · simp [renderEntry, String.append_assoc]

/-- Witness for C9: the empty listing gives the literal string; a listing
of two entries gives the header plus the two rendered lines. -/
theorem list_render_witness :
    listWorkers baseWorld = .ok "No workers found." ∧
    listWorkers twoWorkersWorld =
      .ok ("Workers:\n" ++ String.intercalate "\n"
        (([{ id := "alpha", modified_on := "2024-01-01" },
           { id := "beta", modified_on := "2024-02-02" }] : List WorkerEntry).map renderEntry)) :=
  ⟨(list_render baseWorld rfl).1 rfl,
   ((list_render twoWorkersWorld rfl).2
      [{ id := "alpha", modified_on := "2024-01-01" },
       { id := "beta", modified_on := "2024-02-02" }] rfl (by decide)).1⟩

/-- Counterexample for C10: in a world whose content endpoint serves back
exactly the code submitted for demo-fn (the one-character script X), the
read operation returns the code wrapped under a fixed header line, not the
submitted string itself, so read_source does not return the submitted code
verbatim as its return value. -/
theorem roundtrip_not_verbatim :
    createWorker roundTripWorld "demo-fn" "X" =
      .ok ("Worker \x27demo-fn\x27 created successfully. It will be available at https://demo-fn.<your-subdomain>.workers.dev") ∧
    getWorker roundTripWorld "demo-fn" = .ok ("Source code for \x27demo-fn\x27:\n\nX") ∧
    getWorker roundTripWorld "demo-fn" ≠ .ok "X" := by
  refine ⟨rfl, rfl, ?_⟩
  intro h
  rw [show getWorker roundTripWorld "demo-fn" =
    .ok ("Source code for \x27demo-fn\x27:\n\nX") from rfl] at h
  injection h with h2
  exact absurd h2 (by decide)

/-- C10 amended: after a successful create_or_update of a worker with some
code, a read against a platform serving back exactly the submitted code
succeeds and returns that code verbatim, preceded by the fixed
Source code for name header - the code round-trips as the suffix of the
returned text, not as the whole return value. -/
theorem roundtrip_amended (w : World) (name code : String)
    (hcr : (w.createResp name code).success = true)
    (hok : respOk (w.getResp name) = true)
    (hbody : (w.getResp name).body = code) :
    isOkE (createWorker w name code) = true ∧
    getWorker w name = .ok ("Source code for \x27" ++ name ++ "\x27:\n\n" ++ code) := by
  constructor
  · simp [createWorker, hcr, isOkE]
  · simp [getWorker, hok, hbody]

/-- Witness for the amended C10: the concrete round trip of the script X
through the serving platform. -/
theorem roundtrip_amended_witness :
    isOkE (createWorker roundTripWorld "demo-fn" "X") = true ∧
    getWorker roundTripWorld "demo-fn" =
      .ok ("Source code for \x27" ++ "demo-fn" ++ "\x27:\n\n" ++ "X") :=
  roundtrip_amended roundTripWorld "demo-fn" "X" rfl rfl rfl

end WorkerAgent
